import Mathlib

/-!
Shallow embedding of the Pipe-Lion capture-file decoder and per-packet
protocol analyzer (src/core/src/lib.rs).  Byte buffers are modelled as
`List Nat` (each element a `u8` value; the Rust type system guarantees
values below 256, so no reduction modulo 256 is applied on reads).
All indexing in the source is bounds-checked at the use sites, so the
out-of-range default of `byteAt` is never observable in guarded code.
-/

namespace PipeLion

/-- Byte at index `i`; `0` when out of range (source indexing is
bounds-checked at every use site). -/
def byteAt (data : List Nat) (i : Nat) : Nat := data.getD i 0

/-- Model of the Rust subslice `data[start..start+len]`. -/
def sliceList (data : List Nat) (start len : Nat) : List Nat :=
  (data.drop start).take len

/-- Big-endian `u16` read, as in `u16::from_be_bytes`. -/
def readU16be (data : List Nat) (i : Nat) : Nat :=
  byteAt data i * 256 + byteAt data (i + 1)

/-- Little-endian `u32` read, as in `u32::from_le_bytes`. -/
def readU32le (data : List Nat) (i : Nat) : Nat :=
  byteAt data i + byteAt data (i + 1) * 256 + byteAt data (i + 2) * 65536 +
    byteAt data (i + 3) * 16777216

/-- Big-endian `u32` read, as in `u32::from_be_bytes`. -/
def readU32be (data : List Nat) (i : Nat) : Nat :=
  byteAt data i * 16777216 + byteAt data (i + 1) * 65536 +
    byteAt data (i + 2) * 256 + byteAt data (i + 3)

/-- Endianness of a legacy PCAP file (enum `Endianness` in the source). -/
inductive Endianness where
  | little
  | big
deriving DecidableEq, Repr, Inhabited

/-- Model of `Endianness::read_u32` (the source reads a 4-byte subslice;
here the buffer and offset are passed directly). -/
def Endianness.readU32 (e : Endianness) (data : List Nat) (i : Nat) : Nat :=
  match e with
  | .little => readU32le data i
  | .big => readU32be data i

/-- Model of `Endianness::read_i32`: signed reinterpretation of the
32-bit value. -/
def Endianness.readI32 (e : Endianness) (data : List Nat) (i : Nat) : Int :=
  let v := e.readU32 data i
  if v < 2147483648 then (v : Int) else (v : Int) - 4294967296

/-- Uppercase hexadecimal digit, as produced by Rust `{:X}` formatting. -/
def hexDigitUpper (n : Nat) : Char :=
  if n < 10 then Char.ofNat (48 + n) else Char.ofNat (55 + n)

/-- Lowercase hexadecimal digit, as produced by Rust `{:x}` formatting
and by serde's `\u00xx` escapes. -/
def hexDigitLower (n : Nat) : Char :=
  if n < 10 then Char.ofNat (48 + n) else Char.ofNat (87 + n)

/-- Rust `format!("{:02X}", byte)` for a `u8` value. -/
def byteHex (b : Nat) : String :=
  String.mk [hexDigitUpper (b / 16 % 16), hexDigitUpper (b % 16)]

/-- Rust `format!("{:04X}", v)` for a `u16` value. -/
def hex4 (v : Nat) : String :=
  String.mk [hexDigitUpper (v / 4096 % 16), hexDigitUpper (v / 256 % 16),
    hexDigitUpper (v / 16 % 16), hexDigitUpper (v % 16)]

/-- Minimal JSON value model; `num` covers the only numeric fields the
program serializes (`usize` lengths and `u8` payload bytes). -/
inductive Json where
  | str (s : String)
  | num (n : Nat)
  | arr (items : List Json)
  | obj (fields : List (String × Json))
deriving Repr, Inhabited

/-- Escaping of one character inside a JSON string, following
serde_json: quote and backslash get a backslash escape, control
characters below 0x20 get the short escapes or `\u00xx` with lowercase
hex, everything else is passed through. -/
def escapeChar (c : Char) : String :=
  if c = '"' then "\\\""
  else if c = '\\' then "\\\\"
  else if c.toNat < 32 then
    if c = Char.ofNat 8 then "\\b"
    else if c = Char.ofNat 9 then "\\t"
    else if c = Char.ofNat 10 then "\\n"
    else if c = Char.ofNat 12 then "\\f"
    else if c = Char.ofNat 13 then "\\r"
    else "\\u00" ++ String.mk [hexDigitLower (c.toNat / 16), hexDigitLower (c.toNat % 16)]
  else String.singleton c

/-- JSON string literal with serde_json escaping. -/
def escapeString (s : String) : String :=
  "\"" ++ String.join (s.toList.map escapeChar) ++ "\""

mutual

/-- serde_json-style serialization of a JSON value. -/
def Json.encode : Json → String
  | .str s => escapeString s
  | .num n => toString n
  | .arr items => "[" ++ Json.encodeItems items ++ "]"
  | .obj fields => "\x7b" ++ Json.encodeFields fields ++ "\x7d"

/-- Comma-separated serialization of array items. -/
def Json.encodeItems : List Json → String
  | [] => ""
  | [x] => Json.encode x
  | x :: y :: xs => Json.encode x ++ "," ++ Json.encodeItems (y :: xs)

/-- Comma-separated serialization of object fields. -/
def Json.encodeFields : List (String × Json) → String
  | [] => ""
  | [(k, v)] => escapeString k ++ ":" ++ Json.encode v
  | (k, v) :: f :: fs => escapeString k ++ ":" ++ Json.encode v ++ "," ++ Json.encodeFields (f :: fs)

end

/-- Field lookup in a decoded JSON object (first binding wins). -/
def Json.getField : Json → String → Option Json
  | .obj fields, key => fields.lookup key
  | _, _ => none

/-- Record `Packet` of the source. -/
structure Packet where
  time : String
  source : String
  destination : String
  protocol : String
  length : Nat
  info : String
  payload : List Nat
deriving DecidableEq, Repr, Inhabited

/-- Record `PacketProcessingResult` of the source. -/
structure PacketProcessingResult where
  packets : List Packet
  warnings : List String
  errors : List String
deriving DecidableEq, Repr, Inhabited

/-- Record `PacketMetadata` of the source. -/
structure PacketMetadata where
  time : String
  source : String
  destination : String
  protocol : String
  summary : String
  length : Nat
deriving DecidableEq, Repr, Inhabited

/-- Record `InterfaceInfo` of the source. -/
structure InterfaceInfo where
  linktype : Nat
  ts_offset : Nat
  ts_resolution : Nat
deriving DecidableEq, Repr, Inhabited

/-- Record `PacketAnalysis` of the source. -/
structure PacketAnalysis where
  source : String
  destination : String
  protocol : String
  summary : String
deriving DecidableEq, Repr, Inhabited

/-- Record `PcapHeaderInfo` of the source. -/
structure PcapHeaderInfo where
  endianness : Endianness
  resolution : Nat
  timezone_offset : Int
  linktype : Nat
  snaplen : Nat
deriving DecidableEq, Repr, Inhabited

/-- Capture-format dispatch value (enum `CaptureFormat`). -/
inductive CaptureFormat where
  | raw
  | pcap
  | pcapng
deriving DecidableEq, Repr, Inhabited

/-- Model of `build_hex_preview`: uppercase two-digit hex groups joined
by single spaces over the first `min(len, max_len)` bytes, with a
space-ellipsis continuation when the input is longer. -/
def build_hex_preview (bytes : List Nat) (maxLen : Nat) : String :=
  let previewLen := min bytes.length maxLen
  let preview := String.intercalate " " ((bytes.take previewLen).map byteHex)
  if previewLen < bytes.length then preview ++ " …" else preview

/-- Model of `build_ascii_preview`: printable ASCII passes through,
anything else becomes a dot, with an ellipsis when the input is longer
than `max_len`. -/
def build_ascii_preview (bytes : List Nat) (maxLen : Nat) : String :=
  let previewLen := min bytes.length maxLen
  let preview := String.mk ((bytes.take previewLen).map fun b =>
    if 32 ≤ b ∧ b ≤ 126 then Char.ofNat b else '.')
  if previewLen < bytes.length then preview ++ "…" else preview

/-- The JSON object serialized into `Packet.info` (struct
`PacketSummary` of the source; field order follows the struct). -/
def packetSummaryJson (meta : PacketMetadata) (payload : List Nat) : Json :=
  .obj [("info", .str meta.summary), ("summary", .str meta.summary),
    ("time", .str meta.time), ("src", .str meta.source),
    ("dst", .str meta.destination), ("protocol", .str meta.protocol),
    ("length", .num meta.length),
    ("hex_preview", .str (build_hex_preview payload 32)),
    ("ascii_preview", .str (build_ascii_preview payload 32))]

/-- Model of `create_packet`.  The source serializes `PacketSummary`
with serde_json (which cannot fail on this struct, so the
`unwrap_or_else` fallback is dead code) and copies the payload. -/
def create_packet (meta : PacketMetadata) (payload : List Nat) : Packet :=
  { time := meta.time
    source := meta.source
    destination := meta.destination
    protocol := meta.protocol
    length := meta.length
    info := Json.encode (packetSummaryJson meta payload)
    payload := payload }

/-- Left zero-padding of a decimal rendering to the requested width,
as done by Rust `{value:0width$}`. -/
def zeroPad (width : Nat) (s : String) : String :=
  if s.length < width then String.mk (List.replicate (width - s.length) '0') ++ s else s

/-- Helper loop of `decimal_digits`: strips factors of ten. -/
def decimal_digits_aux (value digits : Nat) : Option Nat :=
  if value ≤ 1 then some digits
  else if value % 10 ≠ 0 then none
  else decimal_digits_aux (value / 10) (digits + 1)
termination_by value
decreasing_by exact Nat.div_lt_self (by omega) (by omega)

/-- Model of `decimal_digits`: number of decimal digits when the
resolution is a power of ten, `none` otherwise. -/
def decimal_digits (resolution : Nat) : Option Nat :=
  if resolution = 0 then none else decimal_digits_aux resolution 0

/-- Model of `format_timestamp`.  The non-power-of-ten branch computes
`seconds + fractional/resolution` in `f64` and renders it with 6
fractional digits; it is modelled here with exact rational rounding
(round half away from zero).  No claim depends on that branch. -/
def format_timestamp (seconds : Int) (fractional resolution : Nat) : String :=
  if seconds < 0 then "0.000000"
  else
    match decimal_digits resolution with
    | some digits => toString seconds ++ "." ++ zeroPad digits (toString fractional)
    | none =>
      let scaled := (seconds.toNat * resolution + fractional) * 1000000
      let rounded := (scaled + resolution / 2) / resolution
      toString (rounded / 1000000) ++ "." ++ zeroPad 6 (toString (rounded % 1000000))

/-- Rust `Ipv4Addr::to_string`: dotted quad. -/
def formatIpv4 (a b c d : Nat) : String :=
  toString a ++ "." ++ toString b ++ "." ++ toString c ++ "." ++ toString d

/-- The eight big-endian 16-bit segments of an IPv6 address given as 16
bytes. -/
def ipv6Segments (bytes : List Nat) : List Nat :=
  [readU16be bytes 0, readU16be bytes 2, readU16be bytes 4, readU16be bytes 6,
    readU16be bytes 8, readU16be bytes 10, readU16be bytes 12, readU16be bytes 14]

/-- Lowercase hex rendering of a segment without leading zeros, as in
Rust `{:x}`. -/
def segHex (n : Nat) : String := String.mk (Nat.toDigits 16 n)

/-- First longest run of zero segments (start, length), mirroring the
scan in Rust std's `Display for Ipv6Addr`. -/
def zeroRunAux : List Nat → Nat → Nat × Nat → Nat × Nat → Nat × Nat
  | [], _, longest, _ => longest
  | s :: rest, i, longest, current =>
    if s = 0 then
      let cur := (if current.2 = 0 then i else current.1, current.2 + 1)
      let longest2 := if longest.2 < cur.2 then cur else longest
      zeroRunAux rest (i + 1) longest2 cur
    else zeroRunAux rest (i + 1) longest (0, 0)

/-- Segments joined by single colons in lowercase hex. -/
def fmtSegments (segs : List Nat) : String :=
  String.intercalate ":" (segs.map segHex)

/-- Model of Rust std `Ipv6Addr::to_string` on 16 raw bytes:
unspecified and loopback shortcuts, the IPv4-mapped form, and otherwise
compression of the first longest zero run of length at least two.  This
is Rust standard-library code, external to the repository; no claim
depends on the produced text. -/
def formatIpv6 (bytes : List Nat) : String :=
  let segs := ipv6Segments bytes
  if segs = [0, 0, 0, 0, 0, 0, 0, 0] then "::"
  else if segs = [0, 0, 0, 0, 0, 0, 0, 1] then "::1"
  else if segs.take 6 = [0, 0, 0, 0, 0, 65535] then
    "::ffff:" ++ formatIpv4 (byteAt bytes 12) (byteAt bytes 13) (byteAt bytes 14) (byteAt bytes 15)
  else
    let run := zeroRunAux segs 0 (0, 0) (0, 0)
    if 1 < run.2 then
      fmtSegments (segs.take run.1) ++ "::" ++ fmtSegments (segs.drop (run.1 + run.2))
    else fmtSegments segs

/-- Model of `map_ip_protocol`. -/
def map_ip_protocol (value : Nat) : String :=
  if value = 1 then "ICMP"
  else if value = 2 then "IGMP"
  else if value = 6 then "TCP"
  else if value = 17 then "UDP"
  else if value = 41 then "ENCAP"
  else if value = 47 then "GRE"
  else if value = 50 then "ESP"
  else if value = 51 then "AH"
  else if value = 58 then "ICMPv6"
  else if value = 89 then "OSPF"
  else if value = 132 then "SCTP"
  else "IP"

/-- Model of `describe_icmpv4`. -/
def describe_icmpv4 (icmpType icmpCode : Nat) : String :=
  if icmpType = 0 then "echo reply"
  else if icmpType = 3 ∧ icmpCode = 0 then "destination network unreachable"
  else if icmpType = 3 ∧ icmpCode = 1 then "destination host unreachable"
  else if icmpType = 3 ∧ icmpCode = 3 then "port unreachable"
  else if icmpType = 5 ∧ icmpCode = 1 then "redirect host"
  else if icmpType = 8 then "echo request"
  else if icmpType = 11 ∧ icmpCode = 0 then "time exceeded in transit"
  else if icmpType = 11 ∧ icmpCode = 1 then "fragment reassembly time exceeded"
  else "type " ++ toString icmpType ++ ", code " ++ toString icmpCode

/-- Model of `describe_icmpv6`. -/
def describe_icmpv6 (icmpType icmpCode : Nat) : String :=
  if icmpType = 1 ∧ icmpCode = 0 then "destination unreachable"
  else if icmpType = 2 ∧ icmpCode = 0 then "packet too big"
  else if icmpType = 3 ∧ icmpCode = 0 then "time exceeded"
  else if icmpType = 128 then "echo request"
  else if icmpType = 129 then "echo reply"
  else if icmpType = 133 then "router solicitation"
  else if icmpType = 134 then "router advertisement"
  else if icmpType = 135 then "neighbor solicitation"
  else if icmpType = 136 then "neighbor advertisement"
  else "type " ++ toString icmpType ++ ", code " ++ toString icmpCode

/-- Model of `format_port`. -/
def format_port (address : String) (port : Nat) : String :=
  address ++ ":" ++ toString port

/-- Model of `format_mac`. -/
def format_mac (bytes : List Nat) : String :=
  String.intercalate ":" (bytes.map byteHex)

/-- Model of `fallback_analysis`. -/
def fallback_analysis (linktype length : Nat) : PacketAnalysis :=
  { source := "—"
    destination := "—"
    protocol := "LINKTYPE " ++ toString linktype
    summary := "Captured " ++ toString length ++ " bytes (linktype " ++ toString linktype ++ ")" }

/-- The clamped IPv4 payload slice computed inside `parse_ipv4_packet`:
`total_length` bounds the payload end, which never exceeds the buffer. -/
def ipv4Payload (packet : List Nat) : List Nat :=
  let ihl := byteAt packet 0 % 16 * 4
  let payload_end := min packet.length (readU16be packet 2)
  if ihl < payload_end then sliceList packet ihl (payload_end - ihl) else []

/-- Model of `parse_ipv4_packet`.  The source's `match protocol` arms
(`6 | 17 | 132`, `1`, `_`) are rendered as an if-chain over the same
disjoint conditions. -/
def parse_ipv4_packet (packet : List Nat) : Option PacketAnalysis :=
  if packet.length < 20 then none
  else if byteAt packet 0 / 16 ≠ 4 then none
  else if byteAt packet 0 % 16 * 4 < 20 ∨ packet.length < byteAt packet 0 % 16 * 4 then none
  else if readU16be packet 2 < byteAt packet 0 % 16 * 4 then none
  else
    let protocol := byteAt packet 9
    let src_ip := formatIpv4 (byteAt packet 12) (byteAt packet 13) (byteAt packet 14) (byteAt packet 15)
    let dst_ip := formatIpv4 (byteAt packet 16) (byteAt packet 17) (byteAt packet 18) (byteAt packet 19)
    let payload := ipv4Payload packet
    let protocol_name := map_ip_protocol protocol
    let base : PacketAnalysis :=
      { source := src_ip, destination := dst_ip, protocol := protocol_name,
        summary := protocol_name ++ " " ++ src_ip ++ " → " ++ dst_ip }
    if protocol = 6 ∨ protocol = 17 ∨ protocol = 132 then
      if 4 ≤ payload.length then
        let src := format_port src_ip (readU16be payload 0)
        let dst := format_port dst_ip (readU16be payload 2)
        some { base with
                source := src, destination := dst,
                summary := protocol_name ++ " " ++ src ++ " → " ++ dst }
      else some base
    else if protocol = 1 then
      if 2 ≤ payload.length then
        some { base with
                summary := "ICMP " ++ src_ip ++ " → " ++ dst_ip ++ " (" ++
                  describe_icmpv4 (byteAt payload 0) (byteAt payload 1) ++ ")" }
      else some base
    else some base

/-- One iteration of the IPv6 extension-header loop of
`parse_ipv6_packet`: `some (next_header, offset)` when a recognized
header is skipped, `none` when the loop breaks (unrecognized
next-header or a length that would overrun the buffer). -/
def ipv6ExtStep (packet : List Nat) (nh offset : Nat) : Option (Nat × Nat) :=
  if nh = 0 ∨ nh = 43 ∨ nh = 60 then
    if packet.length < offset + 8 then none
    else
      let hdr_len := (byteAt packet (offset + 1) + 1) * 8
      if packet.length < offset + hdr_len then none
      else some (byteAt packet offset, offset + hdr_len)
  else if nh = 44 then
    if packet.length < offset + 8 then none
    else some (byteAt packet offset, offset + 8)
  else if nh = 51 then
    if packet.length < offset + 4 then none
    else
      let hdr_len := (byteAt packet (offset + 1) + 2) * 4
      if packet.length < offset + hdr_len then none
      else some (byteAt packet offset, offset + hdr_len)
  else none

/-- The bounded extension-header traversal (`for _ in 0..4`) of
`parse_ipv6_packet`. -/
def ipv6SkipExt (packet : List Nat) : Nat → Nat → Nat → Nat × Nat
  | 0, nh, offset => (nh, offset)
  | fuel + 1, nh, offset =>
    match ipv6ExtStep packet nh offset with
    | none => (nh, offset)
    | some s => ipv6SkipExt packet fuel s.1 s.2

/-- Model of `parse_ipv6_packet`. -/
def parse_ipv6_packet (packet : List Nat) : Option PacketAnalysis :=
  if packet.length < 40 then none
  else if byteAt packet 0 / 16 ≠ 6 then none
  else
    let src_ip := formatIpv6 (sliceList packet 8 16)
    let dst_ip := formatIpv6 (sliceList packet 24 16)
    let skipped := ipv6SkipExt packet 4 (byteAt packet 6) 40
    let next_header := skipped.1
    let offset := skipped.2
    if packet.length < offset then none
    else
      let payload := sliceList packet offset (packet.length - offset)
      let protocol_name := map_ip_protocol next_header
      let base : PacketAnalysis :=
        { source := src_ip, destination := dst_ip, protocol := protocol_name,
          summary := protocol_name ++ " " ++ src_ip ++ " → " ++ dst_ip }
      if next_header = 6 ∨ next_header = 17 ∨ next_header = 132 then
        if 4 ≤ payload.length then
          let src := format_port src_ip (readU16be payload 0)
          let dst := format_port dst_ip (readU16be payload 2)
          some { base with
                  source := src, destination := dst,
                  summary := protocol_name ++ " " ++ src ++ " → " ++ dst }
        else some base
      else if next_header = 58 then
        if 2 ≤ payload.length then
          some { base with
                  summary := "ICMPv6 " ++ src_ip ++ " → " ++ dst_ip ++ " (" ++
                    describe_icmpv6 (byteAt payload 0) (byteAt payload 1) ++ ")" }
        else some base
      else some base

/-- Model of `parse_arp_packet`. -/
def parse_arp_packet (packet : List Nat) (src_mac dst_mac : String) : Option PacketAnalysis :=
  if packet.length < 28 then none
  else
    let hw_len := byteAt packet 4
    let proto_len := byteAt packet 5
    let operation := readU16be packet 6
    if readU16be packet 0 ≠ 1 ∨ readU16be packet 2 ≠ 2048 ∨ hw_len ≠ 6 ∨ proto_len ≠ 4 then none
    else if packet.length < 8 + 2 * (hw_len + proto_len) then none
    else
      let sender_mac := format_mac (sliceList packet 8 6)
      let sender_ip := formatIpv4 (byteAt packet 14) (byteAt packet 15) (byteAt packet 16) (byteAt packet 17)
      let target_mac := format_mac (sliceList packet 18 6)
      let target_ip := formatIpv4 (byteAt packet 24) (byteAt packet 25) (byteAt packet 26) (byteAt packet 27)
      let core :=
        if operation = 1 then
          (sender_ip, target_ip, "ARP who-has " ++ target_ip ++ " tell " ++ sender_ip)
        else if operation = 2 then
          (sender_ip, target_ip, "ARP reply " ++ sender_ip ++ " is-at " ++ sender_mac)
        else
          (sender_ip, target_ip, "ARP op " ++ toString operation ++ " " ++ sender_ip ++ " → " ++ target_ip)
      some { source := core.1, destination := core.2.1, protocol := "ARP",
             summary := core.2.2 ++ " (" ++ src_mac ++ " → " ++
               (if operation = 2 then target_mac else dst_mac) ++ ")" }

/-- Model of `analyze_ethernet_frame`.  The `match ethertype` arms are
rendered as an if-chain; in each parsed arm the em-dash placeholders
are replaced by the link-layer MACs. -/
def analyze_ethernet_frame (frame : List Nat) : PacketAnalysis :=
  if frame.length < 14 then fallback_analysis 1 frame.length
  else
    let dst_mac := format_mac (sliceList frame 0 6)
    let src_mac := format_mac (sliceList frame 6 6)
    let ethertype := readU16be frame 12
    let dflt : PacketAnalysis :=
      { source := src_mac, destination := dst_mac,
        protocol := "EtherType 0x" ++ hex4 ethertype,
        summary := "Ethernet 0x" ++ hex4 ethertype ++ " → captured " ++
          toString frame.length ++ " bytes" }
    if ethertype = 2048 then
      match parse_ipv4_packet (frame.drop 14) with
      | some a =>
        { a with source := if a.source = "—" then src_mac else a.source,
                 destination := if a.destination = "—" then dst_mac else a.destination }
      | none => dflt
    else if ethertype = 34525 then
      match parse_ipv6_packet (frame.drop 14) with
      | some a =>
        { a with source := if a.source = "—" then src_mac else a.source,
                 destination := if a.destination = "—" then dst_mac else a.destination }
      | none => dflt
    else if ethertype = 2054 then
      match parse_arp_packet (frame.drop 14) src_mac dst_mac with
      | some a => a
      | none => dflt
    else dflt

/-- Model of `analyze_raw_ip`: peek the first nibble. -/
def analyze_raw_ip (payload : List Nat) : Option PacketAnalysis :=
  match payload.head? with
  | none => none
  | some b =>
    if b / 16 = 4 then parse_ipv4_packet payload
    else if b / 16 = 6 then parse_ipv6_packet payload
    else none

/-- Model of `analyze_null_loopback`.  The source reads the address
family with `u32::from_ne_bytes`; the program targets wasm32, which is
little-endian. -/
def analyze_null_loopback (payload : List Nat) : Option PacketAnalysis :=
  if payload.length < 4 then none
  else
    let family := readU32le payload 0
    let data := payload.drop 4
    if family = 2 then parse_ipv4_packet data
    else if family = 24 then parse_ipv6_packet data
    else none

/-- Model of `analyze_payload`.  The `match linktype` arms
(`1`, `0`, `101 | 228`, `229`, `_`) are rendered as an if-chain over
the same disjoint conditions. -/
def analyze_payload (linktype : Nat) (payload : List Nat) : PacketAnalysis :=
  if linktype = 1 then analyze_ethernet_frame payload
  else if linktype = 0 then
    (analyze_null_loopback payload).getD (fallback_analysis linktype payload.length)
  else if linktype = 101 ∨ linktype = 228 then
    (parse_ipv4_packet payload).getD (fallback_analysis linktype payload.length)
  else if linktype = 229 then
    (parse_ipv6_packet payload).getD (fallback_analysis linktype payload.length)
  else
    (analyze_raw_ip payload).getD (fallback_analysis linktype payload.length)

/-- Model of `detect_format`: magic-byte dispatch. -/
def detect_format (data : List Nat) : CaptureFormat :=
  if data.length < 4 then .raw
  else if data.take 4 = [10, 13, 13, 10] then .pcapng
  else
    let magic := readU32le data 0
    if magic = 0xA1B2C3D4 ∨ magic = 0xA1B23C4D ∨ magic = 0xD4C3B2A1 ∨ magic = 0x4D3CB2A1 then
      .pcap
    else .raw

/-- Model of `parse_pcap_header`: the 24-byte legacy PCAP global
header. -/
def parse_pcap_header (data : List Nat) : Except String (PcapHeaderInfo × Nat) :=
  if data.length < 24 then .error "PCAP data is too short"
  else
    let magic := readU32le data 0
    let build : Endianness → Nat → Except String (PcapHeaderInfo × Nat) := fun e res =>
      .ok ({ endianness := e, resolution := res,
             timezone_offset := e.readI32 data 8,
             linktype := e.readU32 data 20,
             snaplen := e.readU32 data 16 }, 24)
    if magic = 0xA1B2C3D4 then build .little 1000000
    else if magic = 0xA1B23C4D then build .little 1000000000
    else if magic = 0xD4C3B2A1 then build .big 1000000
    else if magic = 0x4D3CB2A1 then build .big 1000000000
    else .error "Unrecognized PCAP header"

/-- Warning text for a truncated capture. -/
def truncatedWarning (n c o : Nat) : String :=
  "Packet " ++ toString n ++ " truncated (captured " ++ toString c ++ " of " ++
    toString o ++ " bytes)"

/-- Warning text for a record header running past the buffer. -/
def exceedsWarning (n : Nat) : String :=
  "Packet " ++ toString n ++ " header exceeds capture length"

/-- Warning text for an Enhanced Packet block naming an interface the
current section has not defined. -/
def unknownInterfaceWarning (n ifId : Nat) : String :=
  "Enhanced packet " ++ toString n ++ " references unknown interface " ++ toString ifId

/-- Metadata of the PCAP record starting at `offset` (the bindings of
the loop body of `process_pcap`): the truncation marker is appended to
the summary exactly when `cap_len < orig_len`. -/
def pcapRecordMeta (header : PcapHeaderInfo) (data : List Nat) (offset : Nat) :
    PacketMetadata :=
  let ts_sec := header.endianness.readU32 data offset
  let ts_frac := header.endianness.readU32 data (offset + 4)
  let cap_len := header.endianness.readU32 data (offset + 8)
  let orig_len := header.endianness.readU32 data (offset + 12)
  let analysis := analyze_payload header.linktype (sliceList data (offset + 16) cap_len)
  { time := format_timestamp ((ts_sec : Int) + header.timezone_offset) ts_frac header.resolution,
    source := analysis.source, destination := analysis.destination,
    protocol := analysis.protocol,
    summary := if cap_len < orig_len then analysis.summary ++ " [truncated]" else analysis.summary,
    length := cap_len }

/-- The record loop of `process_pcap`: reads 16-byte record headers and
payloads until the buffer is exhausted or a record overruns it.  The
truncation warning is appended exactly when `cap_len < orig_len`, as in
the source's conditional `push`. -/
def pcapLoop (header : PcapHeaderInfo) (data : List Nat) (offset index : Nat)
    (packets : List Packet) (warnings : List String) : List Packet × List String :=
  if _hoff : offset + 16 ≤ data.length then
    if data.length < offset + 16 + header.endianness.readU32 data (offset + 8) then
      (packets, warnings ++ [exceedsWarning (index + 1)])
    else
      pcapLoop header data (offset + 16 + header.endianness.readU32 data (offset + 8)) (index + 1)
        (packets ++ [create_packet (pcapRecordMeta header data offset)
          (sliceList data (offset + 16) (header.endianness.readU32 data (offset + 8)))])
        (if header.endianness.readU32 data (offset + 8) <
            header.endianness.readU32 data (offset + 12) then
          warnings ++ [truncatedWarning (index + 1) (header.endianness.readU32 data (offset + 8))
            (header.endianness.readU32 data (offset + 12))]
        else warnings)
  else (packets, warnings)
termination_by data.length + 16 - offset
decreasing_by omega

/-- Model of `process_pcap`. -/
def process_pcap (data : List Nat) : Except String PacketProcessingResult :=
  match parse_pcap_header data with
  | .error e => .error e
  | .ok (header, offset) =>
    let r := pcapLoop header data offset 0 [] []
    .ok { packets := r.1, warnings := r.2, errors := [] }

/-- Enhanced Packet block fields used by the decoder, as surfaced by
the external `pcap_parser` crate (`packet_data()` is the captured
payload slice). -/
structure EnhancedPacketBlock where
  if_id : Nat
  ts_high : Nat
  ts_low : Nat
  caplen : Nat
  origlen : Nat
  data : List Nat
deriving DecidableEq, Repr, Inhabited

/-- Simple Packet block fields used by the decoder, as surfaced by the
external `pcap_parser` crate. -/
structure SimplePacketBlock where
  origlen : Nat
  data : List Nat
deriving DecidableEq, Repr, Inhabited

/-- PCAP-NG blocks as consumed by `process_pcapng`.  Binary block
parsing is performed by the external `pcap_parser` crate (not part of
this repository), so blocks are modelled as the already-parsed values
the crate hands to the loop; `interfaceDescription` carries the
`InterfaceInfo` that `InterfaceInfo::from_block` derives from the
block. -/
inductive NgBlock where
  | sectionHeader
  | interfaceDescription (info : InterfaceInfo)
  | enhancedPacket (epb : EnhancedPacketBlock)
  | simplePacket (spb : SimplePacketBlock)
  | other
deriving DecidableEq, Repr, Inhabited

/-- Modelled from the external `pcap_parser` crate: `decode_ts`
combines the 64-bit timestamp with the interface's offset and
resolution (`ts_sec = offset + ts / resolution`,
`ts_frac = ts % resolution`). -/
def decode_ts (ts_high ts_low ts_offset ts_resolution : Nat) : Nat × Nat :=
  let ts := ts_high * 4294967296 + ts_low
  (ts_offset + ts / ts_resolution, ts % ts_resolution)

/-- Metadata built for an Enhanced Packet block (the bindings of the
`EnhancedPacket` arm of `process_pcapng`): the truncation marker is
appended exactly when `caplen < origlen`. -/
def ngEpbMeta (info : InterfaceInfo) (epb : EnhancedPacketBlock) : PacketMetadata :=
  let ts := decode_ts epb.ts_high epb.ts_low info.ts_offset info.ts_resolution
  let analysis := analyze_payload info.linktype epb.data
  { time := format_timestamp (ts.1 : Int) ts.2 info.ts_resolution,
    source := analysis.source, destination := analysis.destination,
    protocol := analysis.protocol,
    summary := if epb.caplen < epb.origlen then analysis.summary ++ " [truncated]" else analysis.summary,
    length := epb.data.length }

/-- Metadata built for a Simple Packet block (the bindings of the
`SimplePacket` arm of `process_pcapng`): interface index 0 is used,
with Ethernet/microsecond defaults when the section has no interface;
no embedded timestamp, so time is `0.000000`. -/
def ngSpbMeta (interfaces : List InterfaceInfo) (spb : SimplePacketBlock) : PacketMetadata :=
  let info := interfaces[0]?.getD { linktype := 1, ts_offset := 0, ts_resolution := 1000000 }
  let analysis := analyze_payload info.linktype spb.data
  { time := "0.000000",
    source := analysis.source, destination := analysis.destination,
    protocol := analysis.protocol,
    summary := if spb.data.length < spb.origlen then analysis.summary ++ " [truncated]" else analysis.summary,
    length := spb.data.length }

/-- The block loop of `process_pcapng`, over the stream of parse
results the external crate's `PcapNGSlice` iterator yields (an `error`
element carries the text `describe_nom_error` produces and stops
consumption). -/
def ngLoop : List (Except String NgBlock) → List InterfaceInfo → Nat →
    List Packet → List String → List Packet × List String
  | [], _, _, packets, warnings => (packets, warnings)
  | .error err :: _, _, _, packets, warnings => (packets, warnings ++ [err])
  | .ok b :: rest, interfaces, packet_index, packets, warnings =>
    match b with
    | .sectionHeader => ngLoop rest [] packet_index packets warnings
    | .interfaceDescription info =>
      ngLoop rest (interfaces ++ [info]) packet_index packets warnings
    | .enhancedPacket epb =>
      match interfaces[epb.if_id]? with
      | none =>
        ngLoop rest interfaces (packet_index + 1) packets
          (warnings ++ [unknownInterfaceWarning (packet_index + 1) epb.if_id])
      | some info =>
        ngLoop rest interfaces (packet_index + 1)
          (packets ++ [create_packet (ngEpbMeta info epb) epb.data])
          (if epb.caplen < epb.origlen then
            warnings ++ [truncatedWarning (packet_index + 1) epb.caplen epb.origlen]
          else warnings)
    | .simplePacket spb =>
      ngLoop rest interfaces (packet_index + 1)
        (packets ++ [create_packet (ngSpbMeta interfaces spb) spb.data])
        (if spb.data.length < spb.origlen then
          warnings ++ [truncatedWarning (packet_index + 1) spb.data.length spb.origlen]
        else warnings)
    | .other => ngLoop rest interfaces packet_index packets warnings

/-- Model of `process_pcapng` over the crate-produced block stream:
`PcapNGSlice::from_slice` either fails up front (the `error` case) or
yields a list of per-block parse results. -/
def process_pcapng (stream : Except String (List (Except String NgBlock))) :
    Except String PacketProcessingResult :=
  match stream with
  | .error e => .error e
  | .ok blocks =>
    let r := ngLoop blocks [] 0 [] []
    .ok { packets := r.1, warnings := r.2, errors := [] }

/-- Model of `process_raw_payload`. -/
def process_raw_payload (data : List Nat) : PacketProcessingResult :=
  if data = [] then { packets := [], warnings := [], errors := [] }
  else
    let summary :=
      if data.length = 1 then "Raw payload (1 byte)"
      else "Raw payload (" ++ toString data.length ++ " bytes)"
    let packet := create_packet
      { time := "0.000000", source := "upload", destination := "—",
        protocol := "RAW", summary := summary, length := data.length } data
    { packets := [packet], warnings := [], errors := [] }

/-- Model of `process_packet` up to JSON serialization.  The PCAP-NG
branch consumes the block stream the external `pcap_parser` crate
produces from the bytes; that external parsing step is abstracted as
the `ngStream` argument. -/
def process_packet_result
    (ngStream : List Nat → Except String (List (Except String NgBlock)))
    (data : List Nat) : PacketProcessingResult :=
  if data = [] then
    { packets := [], warnings := ["Empty payload provided"], errors := [] }
  else
    match detect_format data with
    | .pcap =>
      match process_pcap data with
      | .ok r => r
      | .error err =>
        let fb := process_raw_payload data
        { fb with errors := fb.errors ++ [err] }
    | .pcapng =>
      match process_pcapng (ngStream data) with
      | .ok r => r
      | .error err =>
        let fb := process_raw_payload data
        { fb with errors := fb.errors ++ [err] }
    | .raw => process_raw_payload data

/-- JSON rendering of one packet record (serde `Serialize` for
`Packet`; field order follows the struct). -/
def Packet.toJson (p : Packet) : Json :=
  .obj [("time", .str p.time), ("source", .str p.source),
    ("destination", .str p.destination), ("protocol", .str p.protocol),
    ("length", .num p.length), ("info", .str p.info),
    ("payload", .arr (p.payload.map Json.num))]

/-- Model of `serialize_result` (serde serialization cannot fail on
this structure, so the literal fallback document is dead code). -/
def serialize_result (r : PacketProcessingResult) : String :=
  Json.encode (.obj [("packets", .arr (r.packets.map Packet.toJson)),
    ("warnings", .arr (r.warnings.map Json.str)),
    ("errors", .arr (r.errors.map Json.str))])

/-- Model of the exported entry point `process_packet`. -/
def process_packet
    (ngStream : List Nat → Except String (List (Except String NgBlock)))
    (data : List Nat) : String :=
  serialize_result (process_packet_result ngStream data)

/-- Concrete IPv6 frame used as a test fixture: version nibble 6,
next-header 0 at byte 6, five hop-by-hop extension headers of 8 bytes
each starting at offset 40 (the fourth naming next-header 6), and an
8-byte transport payload. -/
def ipv6ChainSample : List Nat :=
  [96, 0, 0, 0, 0, 0, 0, 0] ++ List.replicate 32 0 ++
    [0, 0, 0, 0, 0, 0, 0, 0] ++ [0, 0, 0, 0, 0, 0, 0, 0] ++
    [0, 0, 0, 0, 0, 0, 0, 0] ++ [6, 0, 0, 0, 0, 0, 0, 0] ++
    [0, 80, 0, 81, 0, 0, 0, 0]

theorem sliceList_length (data : List Nat) (start len : Nat) :
    (sliceList data start len).length = min len (data.length - start) := by
  simp [sliceList]

theorem parse_ipv4_none_of_short (packet : List Nat) (h : packet.length < 20) :
    parse_ipv4_packet packet = none := by
  unfold parse_ipv4_packet
  rw [if_pos h]

theorem parse_ipv6_none_of_short (packet : List Nat) (h : packet.length < 40) :
    parse_ipv6_packet packet = none := by
  unfold parse_ipv6_packet
  rw [if_pos h]

theorem analyze_null_loopback_none_of_short (payload : List Nat)
    (h : payload.length < 24) : analyze_null_loopback payload = none := by
  simp only [analyze_null_loopback]
  split_ifs with h1 h2 h3
  · rfl
  · exact parse_ipv4_none_of_short _ (by rw [List.length_drop]; omega)
  · exact parse_ipv6_none_of_short _ (by rw [List.length_drop]; omega)
  · rfl

theorem analyze_raw_ip_none_of_short (payload : List Nat)
    (h : payload.length < 20) : analyze_raw_ip payload = none := by
  cases payload with
  | nil => rfl
  | cons b rest =>
    simp only [analyze_raw_ip, List.head?]
    split_ifs with h4 h6
    · exact parse_ipv4_none_of_short _ h
    · exact parse_ipv6_none_of_short _ (by omega)
    · rfl

/-- C1: the protocol dissector `analyze_payload` is total — for every
link type and frame it returns a `PacketAnalysis` — and on every short
or malformed frame it returns the fallback analysis whose source and
destination are the em dash U+2014, whose protocol is `LINKTYPE {n}`,
and whose summary is `Captured {len} bytes (linktype {n})`: the
fallback text is as specified (first conjunct), every frame of fewer
than 14 bytes falls back whatever the link type (second conjunct), and
for each dispatch arm a frame its handler rejects falls back — raw
IPv4 link types 101/228, raw IPv6 link type 229, Null/Loopback link
type 0, and the peek-first-nibble raw-IP default (remaining
conjuncts). -/
theorem analyze_payload_fallback_on_short :
    (∀ n len, fallback_analysis n len =
      { source := "—", destination := "—",
        protocol := "LINKTYPE " ++ toString n,
        summary := "Captured " ++ toString len ++ " bytes (linktype " ++ toString n ++ ")" }) ∧
    (∀ (n : Nat) (frame : List Nat), frame.length < 14 →
      analyze_payload n frame = fallback_analysis n frame.length) ∧
    (∀ (n : Nat) (frame : List Nat), (n = 101 ∨ n = 228) →
      parse_ipv4_packet frame = none →
      analyze_payload n frame = fallback_analysis n frame.length) ∧
    (∀ frame : List Nat, parse_ipv6_packet frame = none →
      analyze_payload 229 frame = fallback_analysis 229 frame.length) ∧
    (∀ frame : List Nat, analyze_null_loopback frame = none →
      analyze_payload 0 frame = fallback_analysis 0 frame.length) ∧
    (∀ (n : Nat) (frame : List Nat), n ≠ 0 → n ≠ 1 → n ≠ 101 → n ≠ 228 → n ≠ 229 →
      analyze_raw_ip frame = none →
      analyze_payload n frame = fallback_analysis n frame.length) := by
  refine ⟨fun n len => rfl, ?_, ?_, ?_, ?_, ?_⟩
  · intro n frame h
    unfold analyze_payload
    split_ifs with h1 h0 h101 h229
    · subst h1
      unfold analyze_ethernet_frame
      rw [if_pos h]
    · rw [analyze_null_loopback_none_of_short frame (by omega)]; rfl
    · rw [parse_ipv4_none_of_short frame (by omega)]; rfl
    · rw [parse_ipv6_none_of_short frame (by omega)]; rfl
    · rw [analyze_raw_ip_none_of_short frame (by omega)]; rfl
  · intro n frame hn hp
    unfold analyze_payload
    rw [if_neg (by omega), if_neg (by omega), if_pos hn, hp]
    rfl
  · intro frame hp
    unfold analyze_payload
    rw [if_neg (by omega), if_neg (by omega), if_neg (by omega), if_pos rfl, hp]
    rfl
  · intro frame hp
    unfold analyze_payload
    rw [if_neg (by omega), if_pos rfl, hp]
    rfl
  · intro n frame hn0 hn1 hn101 hn228 hn229 hp
    unfold analyze_payload
    rw [if_neg hn1, if_neg hn0, if_neg (by omega), if_neg hn229, hp]
    rfl

theorem analyze_payload_fallback_on_short_witness :
    analyze_payload 7 [1, 2, 3] = fallback_analysis 7 3 ∧
    analyze_payload 999 [200] = fallback_analysis 999 1 :=
  ⟨analyze_payload_fallback_on_short.2.1 7 [1, 2, 3] (by decide),
   analyze_payload_fallback_on_short.2.2.2.2.2 999 [200] (by decide) (by decide)
     (by decide) (by decide) (by decide) (by decide)⟩

/-- C3: the `info` field of every packet built by `create_packet` is
the JSON serialization of an object whose `time`, `protocol` and
`length` members equal those of the outer packet record and whose
`src`/`dst` members equal the outer record's `source` and
`destination`. -/
theorem create_packet_info_consistent (meta : PacketMetadata) (payload : List Nat) :
    ∃ j : Json, (create_packet meta payload).info = Json.encode j ∧
      j.getField "time" = some (.str (create_packet meta payload).time) ∧
      j.getField "protocol" = some (.str (create_packet meta payload).protocol) ∧
      j.getField "length" = some (.num (create_packet meta payload).length) ∧
      j.getField "src" = some (.str (create_packet meta payload).source) ∧
      j.getField "dst" = some (.str (create_packet meta payload).destination) :=
  ⟨packetSummaryJson meta payload, rfl, rfl, rfl, rfl, rfl, rfl⟩

/-- C9: every non-empty input handed to the raw-payload path yields
exactly one packet with time `0.000000`, source `upload`, destination
`—`, protocol `RAW`, and a summary of `Raw payload (1 byte)` for a
one-byte input and `Raw payload ({n} bytes)` otherwise, adding no
warnings and no errors; and the dispatcher routes every non-empty
input detected as `Raw` to exactly this path. -/
theorem process_raw_payload_spec :
    (∀ data : List Nat, data ≠ [] →
      (process_raw_payload data).warnings = [] ∧
      (process_raw_payload data).errors = [] ∧
      ∃ pkt, (process_raw_payload data).packets = [pkt] ∧
        pkt.time = "0.000000" ∧ pkt.source = "upload" ∧
        pkt.destination = "—" ∧ pkt.protocol = "RAW" ∧
        pkt.length = data.length ∧
        ∃ j : Json, pkt.info = Json.encode j ∧
          j.getField "summary" = some (.str (if data.length = 1
            then "Raw payload (1 byte)"
            else "Raw payload (" ++ toString data.length ++ " bytes)"))) ∧
    (∀ ngStream (data : List Nat), data ≠ [] → detect_format data = .raw →
      process_packet_result ngStream data = process_raw_payload data) := by
  constructor
  · intro data h
    unfold process_raw_payload
    rw [if_neg h]
    refine ⟨rfl, rfl, _, rfl, rfl, rfl, rfl, rfl, rfl,
      packetSummaryJson _ data, rfl, rfl⟩
  · intro ngStream data h hdet
    unfold process_packet_result
    rw [if_neg h, hdet]

theorem process_raw_payload_spec_witness :
    ((process_raw_payload [80, 73]).warnings = [] ∧
      (process_raw_payload [80, 73]).errors = [] ∧
      ∃ pkt, (process_raw_payload [80, 73]).packets = [pkt] ∧
        pkt.time = "0.000000" ∧ pkt.source = "upload" ∧
        pkt.destination = "—" ∧ pkt.protocol = "RAW" ∧
        pkt.length = 2 ∧
        ∃ j : Json, pkt.info = Json.encode j ∧
          j.getField "summary" = some (.str (if (2 : Nat) = 1
            then "Raw payload (1 byte)"
            else "Raw payload (" ++ toString (2 : Nat) ++ " bytes)"))) ∧
    process_packet_result (fun _ => .ok []) [80, 73] = process_raw_payload [80, 73] :=
  ⟨process_raw_payload_spec.1 [80, 73] (by decide),
    process_raw_payload_spec.2 (fun _ => .ok []) [80, 73] (by decide) (by decide)⟩

/-- C10: in the legacy PCAP record loop, trailing bytes too short to
hold a 16-byte record header are silently ignored — the loop returns
the packets and warnings accumulated so far unchanged. -/
theorem pcapLoop_ignores_short_tail (header : PcapHeaderInfo) (data : List Nat)
    (offset index : Nat) (packets : List Packet) (warnings : List String)
    (h : data.length < offset + 16) :
    pcapLoop header data offset index packets warnings = (packets, warnings) := by
  rw [pcapLoop]
  rw [dif_neg (by omega)]

theorem pcapLoop_ignores_short_tail_witness :
    pcapLoop { endianness := .little, resolution := 1000000, timezone_offset := 0,
               linktype := 1, snaplen := 65535 } [1, 2, 3] 0 0 [] [] = ([], []) :=
  pcapLoop_ignores_short_tail _ [1, 2, 3] 0 0 [] [] (by decide)

/-- C6: in the legacy PCAP record loop, a record whose declared
`cap_len` would run past the end of the buffer makes the loop append
the warning `Packet {n} header exceeds capture length` (with `n` the
1-based packet index), keep every previously decoded packet in order,
emit no packet for the record, and stop. -/
theorem pcapLoop_record_exceeds (header : PcapHeaderInfo) (data : List Nat)
    (offset index : Nat) (packets : List Packet) (warnings : List String)
    (h1 : offset + 16 ≤ data.length)
    (h2 : data.length < offset + 16 + header.endianness.readU32 data (offset + 8)) :
    pcapLoop header data offset index packets warnings =
      (packets, warnings ++ [exceedsWarning (index + 1)]) := by
  rw [pcapLoop]
  rw [dif_pos h1, if_pos h2]

theorem pcapLoop_record_exceeds_witness :
    pcapLoop { endianness := .little, resolution := 1000000, timezone_offset := 0,
               linktype := 1, snaplen := 65535 }
      [0, 0, 0, 0, 0, 0, 0, 0, 1, 0, 0, 0, 0, 0, 0, 0] 0 0 [] [] =
        ([], [exceedsWarning 1]) :=
  pcapLoop_record_exceeds _ _ 0 0 [] [] (by decide) (by decide)

theorem pcapLoop_stop (header : PcapHeaderInfo) (data : List Nat)
    (offset index : Nat) (packets : List Packet) (warnings : List String)
    (h : data.length < offset + 16) :
    pcapLoop header data offset index packets warnings = (packets, warnings) := by
  rw [pcapLoop, dif_neg (by omega)]

theorem pcapLoop_exceeds (header : PcapHeaderInfo) (data : List Nat)
    (offset index : Nat) (packets : List Packet) (warnings : List String)
    (h1 : offset + 16 ≤ data.length)
    (h2 : data.length < offset + 16 + header.endianness.readU32 data (offset + 8)) :
    pcapLoop header data offset index packets warnings =
      (packets, warnings ++ [exceedsWarning (index + 1)]) := by
  rw [pcapLoop, dif_pos h1, if_pos h2]

theorem pcapLoop_emit (header : PcapHeaderInfo) (data : List Nat)
    (offset index : Nat) (packets : List Packet) (warnings : List String)
    (h1 : offset + 16 ≤ data.length)
    (h2 : offset + 16 + header.endianness.readU32 data (offset + 8) ≤ data.length) :
    pcapLoop header data offset index packets warnings =
      pcapLoop header data (offset + 16 + header.endianness.readU32 data (offset + 8)) (index + 1)
        (packets ++ [create_packet (pcapRecordMeta header data offset)
          (sliceList data (offset + 16) (header.endianness.readU32 data (offset + 8)))])
        (if header.endianness.readU32 data (offset + 8) <
            header.endianness.readU32 data (offset + 12) then
          warnings ++ [truncatedWarning (index + 1) (header.endianness.readU32 data (offset + 8))
            (header.endianness.readU32 data (offset + 12))]
        else warnings) := by
  rw [pcapLoop, dif_pos h1, if_neg (by omega)]

theorem pcapLoop_append (header : PcapHeaderInfo) (data : List Nat) (fuel : Nat) :
    ∀ offset index packets warnings, data.length + 16 - offset ≤ fuel →
      ∃ ps ws, pcapLoop header data offset index packets warnings =
        (packets ++ ps, warnings ++ ws) := by
  induction fuel with
  | zero =>
    intro offset index packets warnings hf
    refine ⟨[], [], ?_⟩
    rw [pcapLoop_stop header data offset index packets warnings (by omega)]
    simp
  | succ m ih =>
    intro offset index packets warnings hf
    by_cases h1 : offset + 16 ≤ data.length
    · by_cases h2 : data.length < offset + 16 + header.endianness.readU32 data (offset + 8)
      · refine ⟨[], [exceedsWarning (index + 1)], ?_⟩
        rw [pcapLoop_exceeds header data offset index packets warnings h1 h2]
        simp
      · rw [pcapLoop_emit header data offset index packets warnings h1 (by omega)]
        obtain ⟨ps, ws, hrec⟩ := ih
          (offset + 16 + header.endianness.readU32 data (offset + 8)) (index + 1)
          (packets ++ [create_packet (pcapRecordMeta header data offset)
            (sliceList data (offset + 16) (header.endianness.readU32 data (offset + 8)))])
          (if header.endianness.readU32 data (offset + 8) <
              header.endianness.readU32 data (offset + 12) then
            warnings ++ [truncatedWarning (index + 1)
              (header.endianness.readU32 data (offset + 8))
              (header.endianness.readU32 data (offset + 12))]
          else warnings)
          (by omega)
        rw [hrec]
        refine ⟨create_packet (pcapRecordMeta header data offset)
            (sliceList data (offset + 16) (header.endianness.readU32 data (offset + 8))) :: ps,
          (if header.endianness.readU32 data (offset + 8) <
              header.endianness.readU32 data (offset + 12) then
            [truncatedWarning (index + 1) (header.endianness.readU32 data (offset + 8))
              (header.endianness.readU32 data (offset + 12))]
          else []) ++ ws, ?_⟩
        simp only [Prod.mk.injEq]
        constructor
        · simp
        · split_ifs <;> simp
    · refine ⟨[], [], ?_⟩
      rw [pcapLoop_stop header data offset index packets warnings (by omega)]
      simp

theorem create_packet_length (meta : PacketMetadata) (payload : List Nat) :
    (create_packet meta payload).length = meta.length := rfl

theorem create_packet_payload (meta : PacketMetadata) (payload : List Nat) :
    (create_packet meta payload).payload = payload := rfl

theorem pcapRecordMeta_length (header : PcapHeaderInfo) (data : List Nat) (offset : Nat) :
    (pcapRecordMeta header data offset).length =
      header.endianness.readU32 data (offset + 8) := rfl

theorem pcapLoop_length_inv (header : PcapHeaderInfo) (data : List Nat) (fuel : Nat) :
    ∀ offset index packets warnings,
      data.length + 16 - offset ≤ fuel →
      (∀ p ∈ packets, p.length = p.payload.length) →
      ∀ p ∈ (pcapLoop header data offset index packets warnings).1,
        p.length = p.payload.length := by
  induction fuel with
  | zero =>
    intro offset index packets warnings hf hp
    rw [pcapLoop_stop header data offset index packets warnings (by omega)]
    exact hp
  | succ m ih =>
    intro offset index packets warnings hf hp
    by_cases h1 : offset + 16 ≤ data.length
    · by_cases h2 : data.length < offset + 16 + header.endianness.readU32 data (offset + 8)
      · rw [pcapLoop_exceeds header data offset index packets warnings h1 h2]
        exact hp
      · rw [pcapLoop_emit header data offset index packets warnings h1 (by omega)]
        refine ih _ _ _ _ (by omega) ?_
        intro p hpmem
        rcases List.mem_append.mp hpmem with hmem | hmem
        · exact hp p hmem
        · have hpk := List.mem_singleton.mp hmem
          subst hpk
          rw [create_packet_length, create_packet_payload, pcapRecordMeta_length,
            sliceList_length]
          omega
    · rw [pcapLoop_stop header data offset index packets warnings (by omega)]
      exact hp

theorem ngLoop_append (blocks : List (Except String NgBlock)) :
    ∀ interfaces index packets warnings, ∃ ps ws,
      ngLoop blocks interfaces index packets warnings = (packets ++ ps, warnings ++ ws) := by
  induction blocks with
  | nil => intro _ _ packets warnings; exact ⟨[], [], by simp [ngLoop]⟩
  | cons b rest ih =>
    intro interfaces index packets warnings
    cases b with
    | error e => exact ⟨[], [e], by simp [ngLoop]⟩
    | ok blk =>
      cases blk with
      | sectionHeader => simpa [ngLoop] using ih [] index packets warnings
      | interfaceDescription info =>
        simpa [ngLoop] using ih (interfaces ++ [info]) index packets warnings
      | enhancedPacket epb =>
        cases hint : interfaces[epb.if_id]? with
        | none =>
          obtain ⟨ps, ws, h⟩ := ih interfaces (index + 1) packets
            (warnings ++ [unknownInterfaceWarning (index + 1) epb.if_id])
          refine ⟨ps, unknownInterfaceWarning (index + 1) epb.if_id :: ws, ?_⟩
          simp only [ngLoop, hint]
          rw [h]
          simp
        | some info =>
          by_cases hcl : epb.caplen < epb.origlen
          · obtain ⟨ps, ws, h⟩ := ih interfaces (index + 1)
              (packets ++ [create_packet (ngEpbMeta info epb) epb.data])
              (warnings ++ [truncatedWarning (index + 1) epb.caplen epb.origlen])
            refine ⟨create_packet (ngEpbMeta info epb) epb.data :: ps,
              truncatedWarning (index + 1) epb.caplen epb.origlen :: ws, ?_⟩
            simp only [ngLoop, hint, if_pos hcl]
            rw [h]
            simp
          · obtain ⟨ps, ws, h⟩ := ih interfaces (index + 1)
              (packets ++ [create_packet (ngEpbMeta info epb) epb.data]) warnings
            refine ⟨create_packet (ngEpbMeta info epb) epb.data :: ps, ws, ?_⟩
            simp only [ngLoop, hint, if_neg hcl]
            rw [h]
            simp
      | simplePacket spb =>
        by_cases hcl : spb.data.length < spb.origlen
        · obtain ⟨ps, ws, h⟩ := ih interfaces (index + 1)
            (packets ++ [create_packet (ngSpbMeta interfaces spb) spb.data])
            (warnings ++ [truncatedWarning (index + 1) spb.data.length spb.origlen])
          refine ⟨create_packet (ngSpbMeta interfaces spb) spb.data :: ps,
            truncatedWarning (index + 1) spb.data.length spb.origlen :: ws, ?_⟩
          simp only [ngLoop, if_pos hcl]
          rw [h]
          simp
        · obtain ⟨ps, ws, h⟩ := ih interfaces (index + 1)
            (packets ++ [create_packet (ngSpbMeta interfaces spb) spb.data]) warnings
          refine ⟨create_packet (ngSpbMeta interfaces spb) spb.data :: ps, ws, ?_⟩
          simp only [ngLoop, if_neg hcl]
          rw [h]
          simp
      | other => simpa [ngLoop] using ih interfaces index packets warnings

theorem ngLoop_length_inv (blocks : List (Except String NgBlock)) :
    ∀ interfaces index packets warnings,
      (∀ p ∈ packets, p.length = p.payload.length) →
      ∀ p ∈ (ngLoop blocks interfaces index packets warnings).1,
        p.length = p.payload.length := by
  induction blocks with
  | nil => intro _ _ packets warnings hp; simpa [ngLoop] using hp
  | cons b rest ih =>
    intro interfaces index packets warnings hp
    cases b with
    | error e => simpa [ngLoop] using hp
    | ok blk =>
      cases blk with
      | sectionHeader => exact ih [] index packets warnings hp
      | interfaceDescription info => exact ih (interfaces ++ [info]) index packets warnings hp
      | enhancedPacket epb =>
        cases hint : interfaces[epb.if_id]? with
        | none =>
          intro p hmem
          simp only [ngLoop, hint] at hmem
          exact ih interfaces (index + 1) packets _ hp p hmem
        | some info =>
          intro p hmem
          simp only [ngLoop, hint] at hmem
          refine ih interfaces (index + 1) _ _ ?_ p hmem
          intro q hq
          rcases List.mem_append.mp hq with hq2 | hq2
          · exact hp q hq2
          · have := List.mem_singleton.mp hq2
            subst this
            rfl
      | simplePacket spb =>
        intro p hmem
        simp only [ngLoop] at hmem
        refine ih interfaces (index + 1) _ _ ?_ p hmem
        intro q hq
        rcases List.mem_append.mp hq with hq2 | hq2
        · exact hp q hq2
        · have := List.mem_singleton.mp hq2
          subst this
          rfl
      | other => exact ih interfaces index packets warnings hp

theorem process_raw_payload_length_inv (data : List Nat) :
    ∀ p ∈ (process_raw_payload data).packets, p.length = p.payload.length := by
  intro p hp
  unfold process_raw_payload at hp
  by_cases h : data = []
  · rw [if_pos h] at hp
    simp at hp
  · rw [if_neg h] at hp
    simp at hp
    subst hp
    rfl

/-- C2: every packet emitted by the processing pipeline — raw path,
legacy PCAP decoding, PCAP-NG decoding, or a decoder-failure fallback —
has its `length` field equal to the number of bytes of its `payload`
array. -/
theorem process_packet_length_eq_payload :
    ∀ ngStream (data : List Nat) p,
      p ∈ (process_packet_result ngStream data).packets →
      p.length = p.payload.length := by
  intro ngStream data p hp
  unfold process_packet_result at hp
  by_cases hd : data = []
  · rw [if_pos hd] at hp
    simp at hp
  · rw [if_neg hd] at hp
    cases hdet : detect_format data with
    | raw =>
      rw [hdet] at hp
      exact process_raw_payload_length_inv data p hp
    | pcap =>
      rw [hdet] at hp
      cases hpc : process_pcap data with
      | error e =>
        rw [hpc] at hp
        exact process_raw_payload_length_inv data p hp
      | ok r =>
        rw [hpc] at hp
        unfold process_pcap at hpc
        cases hh : parse_pcap_header data with
        | error e => rw [hh] at hpc; simp at hpc
        | ok v =>
          obtain ⟨header, offset⟩ := v
          rw [hh] at hpc
          simp only [Except.ok.injEq] at hpc
          subst hpc
          exact pcapLoop_length_inv header data (data.length + 16) offset 0 [] []
            (by omega) (by simp) p hp
    | pcapng =>
      rw [hdet] at hp
      cases hpc : process_pcapng (ngStream data) with
      | error e =>
        rw [hpc] at hp
        exact process_raw_payload_length_inv data p hp
      | ok r =>
        rw [hpc] at hp
        unfold process_pcapng at hpc
        cases hh : ngStream data with
        | error e => rw [hh] at hpc; simp at hpc
        | ok blocks =>
          rw [hh] at hpc
          simp only [Except.ok.injEq] at hpc
          subst hpc
          exact ngLoop_length_inv blocks [] 0 [] [] (by simp) p hp

set_option maxRecDepth 4000 in
theorem process_packet_length_eq_payload_witness :
    ((process_packet_result (fun _ => .ok []) [80]).packets.getD 0 default).length =
      ((process_packet_result (fun _ => .ok []) [80]).packets.getD 0 default).payload.length :=
  process_packet_length_eq_payload (fun _ => .ok []) [80] _ (by decide)

/-- C5: whenever a decoded frame's captured byte count is strictly
below its advertised original length — a legacy PCAP record with
`cap_len < orig_len`, a PCAP-NG Enhanced Packet with
`caplen < origlen`, or a PCAP-NG Simple Packet whose captured payload
is shorter than `origlen` — the packet emitted for that frame carries a
summary ending in ` [truncated]` and the warning
`Packet {n} truncated (captured {c} of {o} bytes)` is appended to the
warnings, with `n` the 1-based packet index. -/
theorem truncation_contract :
    (∀ (header : PcapHeaderInfo) (data : List Nat) offset index
        (packets : List Packet) (warnings : List String),
      offset + 16 ≤ data.length →
      offset + 16 + header.endianness.readU32 data (offset + 8) ≤ data.length →
      header.endianness.readU32 data (offset + 8) <
        header.endianness.readU32 data (offset + 12) →
      ∃ ps ws s,
        pcapLoop header data offset index packets warnings =
          (packets ++ create_packet (pcapRecordMeta header data offset)
            (sliceList data (offset + 16) (header.endianness.readU32 data (offset + 8))) :: ps,
           warnings ++ truncatedWarning (index + 1)
             (header.endianness.readU32 data (offset + 8))
             (header.endianness.readU32 data (offset + 12)) :: ws) ∧
        (pcapRecordMeta header data offset).summary = s ++ " [truncated]") ∧
    (∀ (epb : EnhancedPacketBlock) rest (interfaces : List InterfaceInfo) index
        (packets : List Packet) (warnings : List String) info,
      interfaces[epb.if_id]? = some info →
      epb.caplen < epb.origlen →
      ∃ ps ws s,
        ngLoop (.ok (.enhancedPacket epb) :: rest) interfaces index packets warnings =
          (packets ++ create_packet (ngEpbMeta info epb) epb.data :: ps,
           warnings ++ truncatedWarning (index + 1) epb.caplen epb.origlen :: ws) ∧
        (ngEpbMeta info epb).summary = s ++ " [truncated]") ∧
    (∀ (spb : SimplePacketBlock) rest (interfaces : List InterfaceInfo) index
        (packets : List Packet) (warnings : List String),
      spb.data.length < spb.origlen →
      ∃ ps ws s,
        ngLoop (.ok (.simplePacket spb) :: rest) interfaces index packets warnings =
          (packets ++ create_packet (ngSpbMeta interfaces spb) spb.data :: ps,
           warnings ++ truncatedWarning (index + 1) spb.data.length spb.origlen :: ws) ∧
        (ngSpbMeta interfaces spb).summary = s ++ " [truncated]") := by
  refine ⟨?_, ?_, ?_⟩
  · intro header data offset index packets warnings h1 h2 h3
    rw [pcapLoop_emit header data offset index packets warnings h1 h2, if_pos h3]
    obtain ⟨ps, ws, hrec⟩ := pcapLoop_append header data (data.length + 16)
      (offset + 16 + header.endianness.readU32 data (offset + 8)) (index + 1)
      (packets ++ [create_packet (pcapRecordMeta header data offset)
        (sliceList data (offset + 16) (header.endianness.readU32 data (offset + 8)))])
      (warnings ++ [truncatedWarning (index + 1)
        (header.endianness.readU32 data (offset + 8))
        (header.endianness.readU32 data (offset + 12))])
      (by omega)
    rw [hrec]
    refine ⟨ps, ws,
      (analyze_payload header.linktype
        (sliceList data (offset + 16) (header.endianness.readU32 data (offset + 8)))).summary,
      by simp, ?_⟩
    simp only [pcapRecordMeta]
    rw [if_pos h3]
  · intro epb rest interfaces index packets warnings info hinfo hcl
    obtain ⟨ps, ws, hrec⟩ := ngLoop_append rest interfaces (index + 1)
      (packets ++ [create_packet (ngEpbMeta info epb) epb.data])
      (warnings ++ [truncatedWarning (index + 1) epb.caplen epb.origlen])
    refine ⟨ps, ws, (analyze_payload info.linktype epb.data).summary, ?_, ?_⟩
    · simp only [ngLoop, hinfo, if_pos hcl]
      rw [hrec]
      simp
    · simp only [ngEpbMeta]
      rw [if_pos hcl]
  · intro spb rest interfaces index packets warnings hcl
    obtain ⟨ps, ws, hrec⟩ := ngLoop_append rest interfaces (index + 1)
      (packets ++ [create_packet (ngSpbMeta interfaces spb) spb.data])
      (warnings ++ [truncatedWarning (index + 1) spb.data.length spb.origlen])
    refine ⟨ps, ws,
      (analyze_payload (interfaces[0]?.getD
        ({ linktype := 1, ts_offset := 0, ts_resolution := 1000000 } : InterfaceInfo)).linktype
        spb.data).summary, ?_, ?_⟩
    · simp only [ngLoop, if_pos hcl]
      rw [hrec]
      simp
    · simp only [ngSpbMeta]
      rw [if_pos hcl]

theorem truncation_contract_witness :
    (∃ ps ws s,
      pcapLoop ⟨.little, 1000000, 0, 1, 65535⟩
        [0, 0, 0, 0, 0, 0, 0, 0, 0, 0, 0, 0, 1, 0, 0, 0] 0 0 [] [] =
        ([] ++ create_packet (pcapRecordMeta ⟨.little, 1000000, 0, 1, 65535⟩
            [0, 0, 0, 0, 0, 0, 0, 0, 0, 0, 0, 0, 1, 0, 0, 0] 0)
          (sliceList [0, 0, 0, 0, 0, 0, 0, 0, 0, 0, 0, 0, 1, 0, 0, 0] 16 0) :: ps,
         [] ++ truncatedWarning 1 0 1 :: ws) ∧
      (pcapRecordMeta ⟨.little, 1000000, 0, 1, 65535⟩
        [0, 0, 0, 0, 0, 0, 0, 0, 0, 0, 0, 0, 1, 0, 0, 0] 0).summary = s ++ " [truncated]") ∧
    (∃ ps ws s,
      ngLoop [.ok (.enhancedPacket ⟨0, 0, 0, 0, 5, []⟩)]
          [⟨1, 0, 1000000⟩] 0 [] [] =
        ([] ++ create_packet (ngEpbMeta ⟨1, 0, 1000000⟩ ⟨0, 0, 0, 0, 5, []⟩) [] :: ps,
         [] ++ truncatedWarning 1 0 5 :: ws) ∧
      (ngEpbMeta ⟨1, 0, 1000000⟩ ⟨0, 0, 0, 0, 5, []⟩).summary = s ++ " [truncated]") ∧
    (∃ ps ws s,
      ngLoop [.ok (.simplePacket ⟨3, []⟩)] [] 0 [] [] =
        ([] ++ create_packet (ngSpbMeta [] ⟨3, []⟩) [] :: ps,
         [] ++ truncatedWarning 1 0 3 :: ws) ∧
      (ngSpbMeta [] ⟨3, []⟩).summary = s ++ " [truncated]") :=
  ⟨truncation_contract.1 _ _ 0 0 [] [] (by decide) (by decide) (by decide),
   truncation_contract.2.1 ⟨0, 0, 0, 0, 5, []⟩ [] _ 0 [] [] _ (by decide) (by decide),
   truncation_contract.2.2 ⟨3, []⟩ [] [] 0 [] [] (by decide)⟩

/-- C7: the PCAP-NG interface table is scoped to the current section —
a Section Header block resets it to empty, so the decoding of the rest
of the stream is independent of any interfaces defined earlier — and an
Enhanced Packet block whose `if_id` does not index an interface of the
current section appends the warning
`Enhanced packet {n} references unknown interface {id}`, emits no
packet record, and decoding continues with the next block. -/
theorem ngLoop_section_scoping :
    (∀ rest (interfaces : List InterfaceInfo) index
        (packets : List Packet) (warnings : List String),
      ngLoop (.ok .sectionHeader :: rest) interfaces index packets warnings =
        ngLoop rest [] index packets warnings) ∧
    (∀ rest (interfaces interfaces2 : List InterfaceInfo) index
        (packets : List Packet) (warnings : List String),
      ngLoop (.ok .sectionHeader :: rest) interfaces index packets warnings =
        ngLoop (.ok .sectionHeader :: rest) interfaces2 index packets warnings) ∧
    (∀ (epb : EnhancedPacketBlock) rest (interfaces : List InterfaceInfo) index
        (packets : List Packet) (warnings : List String),
      interfaces[epb.if_id]? = none →
      ngLoop (.ok (.enhancedPacket epb) :: rest) interfaces index packets warnings =
        ngLoop rest interfaces (index + 1) packets
          (warnings ++ [unknownInterfaceWarning (index + 1) epb.if_id])) := by
  refine ⟨fun _ _ _ _ _ => rfl, fun _ _ _ _ _ _ => rfl, ?_⟩
  intro epb rest interfaces index packets warnings hnone
  simp only [ngLoop, hnone]

theorem ngLoop_section_scoping_witness :
    ngLoop [.ok (.enhancedPacket ⟨2, 0, 0, 0, 0, []⟩)]
        [{ linktype := 1, ts_offset := 0, ts_resolution := 1000000 }] 0 [] [] =
      ngLoop [] [{ linktype := 1, ts_offset := 0, ts_resolution := 1000000 }] 1 []
        ([] ++ [unknownInterfaceWarning 1 2]) :=
  ngLoop_section_scoping.2.2 ⟨2, 0, 0, 0, 0, []⟩ [] _ 0 [] [] (by decide)

/-- C4 fails as stated: this 20-byte buffer has version nibble 4 and
an IHL of 20 that fits the buffer, yet `parse_ipv4_packet` rejects it,
because the source additionally requires the `total_length` field
(here 0) to be at least the header length — a condition the claim
omits. -/
theorem parse_ipv4_claim_counterexample :
    20 ≤ ([69, 0, 0, 0, 0, 0, 0, 0, 0, 17, 0, 0, 10, 0, 0, 1, 10, 0, 0, 2] : List Nat).length ∧
    byteAt [69, 0, 0, 0, 0, 0, 0, 0, 0, 17, 0, 0, 10, 0, 0, 1, 10, 0, 0, 2] 0 / 16 = 4 ∧
    20 ≤ byteAt [69, 0, 0, 0, 0, 0, 0, 0, 0, 17, 0, 0, 10, 0, 0, 1, 10, 0, 0, 2] 0 % 16 * 4 ∧
    byteAt [69, 0, 0, 0, 0, 0, 0, 0, 0, 17, 0, 0, 10, 0, 0, 1, 10, 0, 0, 2] 0 % 16 * 4 ≤
      ([69, 0, 0, 0, 0, 0, 0, 0, 0, 17, 0, 0, 10, 0, 0, 1, 10, 0, 0, 2] : List Nat).length ∧
    parse_ipv4_packet [69, 0, 0, 0, 0, 0, 0, 0, 0, 17, 0, 0, 10, 0, 0, 1, 10, 0, 0, 2] = none := by
  decide

/-- C4 (amended): for every buffer of at least 20 bytes whose version
nibble is 4, whose IHL nibble times 4 is at least 20 and at most the
buffer length, and whose `total_length` field (big-endian u16 at
offset 2) is at least the header length, IPv4 dissection succeeds with
`total_length` clamping the payload upper bound; and whenever the
protocol number is 6, 17 or 132 and the clamped payload has at least 4
bytes, source and destination are `addr:port` strings (ports read
big-endian from the first four payload bytes) and the summary is
`{proto} {src} → {dst}`. -/
theorem parse_ipv4_packet_amended (packet : List Nat)
    (hlen : 20 ≤ packet.length)
    (hver : byteAt packet 0 / 16 = 4)
    (hihl1 : 20 ≤ byteAt packet 0 % 16 * 4)
    (hihl2 : byteAt packet 0 % 16 * 4 ≤ packet.length)
    (htot : byteAt packet 0 % 16 * 4 ≤ readU16be packet 2) :
    ∃ a, parse_ipv4_packet packet = some a ∧
      ((byteAt packet 9 = 6 ∨ byteAt packet 9 = 17 ∨ byteAt packet 9 = 132) →
        4 ≤ (ipv4Payload packet).length →
        a.source = formatIpv4 (byteAt packet 12) (byteAt packet 13) (byteAt packet 14)
            (byteAt packet 15) ++ ":" ++ toString (readU16be (ipv4Payload packet) 0) ∧
        a.destination = formatIpv4 (byteAt packet 16) (byteAt packet 17) (byteAt packet 18)
            (byteAt packet 19) ++ ":" ++ toString (readU16be (ipv4Payload packet) 2) ∧
        a.summary = map_ip_protocol (byteAt packet 9) ++ " " ++ a.source ++ " → " ++
          a.destination) := by
  simp only [parse_ipv4_packet]
  rw [if_neg (by omega), if_neg (by omega), if_neg (by omega), if_neg (by omega)]
  split_ifs with hproto hp4 hicmp hp2
  · exact ⟨_, rfl, fun _ _ => ⟨rfl, rfl, rfl⟩⟩
  · exact ⟨_, rfl, fun _ h4 => absurd h4 hp4⟩
  · exact ⟨_, rfl, fun hc _ => absurd hc hproto⟩
  · exact ⟨_, rfl, fun hc _ => absurd hc hproto⟩
  · exact ⟨_, rfl, fun hc _ => absurd hc hproto⟩

theorem parse_ipv4_packet_amended_witness :
    ∃ a, parse_ipv4_packet
        [69, 0, 0, 28, 0, 0, 0, 0, 64, 17, 0, 0, 10, 0, 0, 1, 10, 0, 0, 2,
         3, 232, 7, 208, 0, 0, 0, 0] = some a ∧
      ((byteAt [69, 0, 0, 28, 0, 0, 0, 0, 64, 17, 0, 0, 10, 0, 0, 1, 10, 0, 0, 2,
          3, 232, 7, 208, 0, 0, 0, 0] 9 = 6 ∨
        byteAt [69, 0, 0, 28, 0, 0, 0, 0, 64, 17, 0, 0, 10, 0, 0, 1, 10, 0, 0, 2,
          3, 232, 7, 208, 0, 0, 0, 0] 9 = 17 ∨
        byteAt [69, 0, 0, 28, 0, 0, 0, 0, 64, 17, 0, 0, 10, 0, 0, 1, 10, 0, 0, 2,
          3, 232, 7, 208, 0, 0, 0, 0] 9 = 132) →
        4 ≤ (ipv4Payload [69, 0, 0, 28, 0, 0, 0, 0, 64, 17, 0, 0, 10, 0, 0, 1, 10, 0, 0, 2,
          3, 232, 7, 208, 0, 0, 0, 0]).length →
        a.source = formatIpv4 10 0 0 1 ++ ":" ++ toString (readU16be (ipv4Payload
            [69, 0, 0, 28, 0, 0, 0, 0, 64, 17, 0, 0, 10, 0, 0, 1, 10, 0, 0, 2,
             3, 232, 7, 208, 0, 0, 0, 0]) 0) ∧
        a.destination = formatIpv4 10 0 0 2 ++ ":" ++ toString (readU16be (ipv4Payload
            [69, 0, 0, 28, 0, 0, 0, 0, 64, 17, 0, 0, 10, 0, 0, 1, 10, 0, 0, 2,
             3, 232, 7, 208, 0, 0, 0, 0]) 2) ∧
        a.summary = map_ip_protocol 17 ++ " " ++ a.source ++ " → " ++ a.destination) :=
  parse_ipv4_packet_amended
    [69, 0, 0, 28, 0, 0, 0, 0, 64, 17, 0, 0, 10, 0, 0, 1, 10, 0, 0, 2,
     3, 232, 7, 208, 0, 0, 0, 0]
    (by decide) (by decide) (by decide) (by decide) (by decide)

theorem ipv6ExtStep_some_le (packet : List Nat) (nh offset : Nat) (s : Nat × Nat)
    (h : ipv6ExtStep packet nh offset = some s) : s.2 ≤ packet.length := by
  simp only [ipv6ExtStep] at h
  split_ifs at h
  all_goals cases h
  all_goals dsimp only
  all_goals omega

theorem ipv6SkipExt_le (packet : List Nat) (fuel : Nat) :
    ∀ nh offset, offset ≤ packet.length →
      (ipv6SkipExt packet fuel nh offset).2 ≤ packet.length := by
  induction fuel with
  | zero => intro nh offset h; exact h
  | succ m ih =>
    intro nh offset h
    rw [ipv6SkipExt]
    cases hs : ipv6ExtStep packet nh offset with
    | none => exact h
    | some s => exact ih s.1 s.2 (ipv6ExtStep_some_le packet nh offset s hs)

theorem ipv6ExtStep_overrun_none (packet : List Nat) (nh offset : Nat)
    (h : ((nh = 0 ∨ nh = 43 ∨ nh = 60) ∧
           (packet.length < offset + 8 ∨
             packet.length < offset + (byteAt packet (offset + 1) + 1) * 8)) ∨
         (nh = 44 ∧ packet.length < offset + 8) ∨
         (nh = 51 ∧ (packet.length < offset + 4 ∨
           packet.length < offset + (byteAt packet (offset + 1) + 2) * 4))) :
    ipv6ExtStep packet nh offset = none := by
  simp only [ipv6ExtStep]
  rcases h with ⟨h1, hov⟩ | ⟨h1, hov⟩ | ⟨h1, hov⟩
  · rw [if_pos h1]
    split_ifs with h8 hh
    · rfl
    · rfl
    · exact absurd hov (by omega)
  · rw [if_neg (by omega), if_pos h1, if_pos hov]
  · rw [if_neg (by omega), if_neg (by omega), if_pos h1]
    split_ifs with h4 hh
    · rfl
    · rfl
    · exact absurd hov (by omega)

theorem ipv6SkipExt_step (packet : List Nat) (fuel nh offset : Nat) (s : Nat × Nat)
    (h : ipv6ExtStep packet nh offset = some s) :
    ipv6SkipExt packet (fuel + 1) nh offset = ipv6SkipExt packet fuel s.1 s.2 := by
  rw [ipv6SkipExt, h]

/-- C8: the IPv6 dissector's extension-header traversal takes at most
four hops — the dissected protocol is determined by the `next_header`
value after the four-hop bounded traversal (first conjunct); a
recognized extension header (Hop-by-Hop 0 / Routing 43 /
Destination-Options 60 with length `(hdr_len_field + 1) * 8`, Fragment
44 with fixed length 8, AH 51 with length `(payload_len_field + 2) * 4`)
whose length would overrun the buffer stops traversal with the current
`next_header` left in place (second conjunct); and when four hops all
succeed the traversal stops at the fourth-hop state even if a fifth
header follows, so the protocol is named by the `next_header` read at
the fourth hop (third conjunct). -/
theorem ipv6_extension_traversal :
    (∀ packet : List Nat, 40 ≤ packet.length → byteAt packet 0 / 16 = 6 →
      ∃ a, parse_ipv6_packet packet = some a ∧
        a.protocol = map_ip_protocol (ipv6SkipExt packet 4 (byteAt packet 6) 40).1) ∧
    (∀ (packet : List Nat) (fuel nh offset : Nat),
      ((nh = 0 ∨ nh = 43 ∨ nh = 60) ∧
        (packet.length < offset + 8 ∨
          packet.length < offset + (byteAt packet (offset + 1) + 1) * 8)) ∨
      (nh = 44 ∧ packet.length < offset + 8) ∨
      (nh = 51 ∧ (packet.length < offset + 4 ∨
        packet.length < offset + (byteAt packet (offset + 1) + 2) * 4)) →
      ipv6SkipExt packet (fuel + 1) nh offset = (nh, offset)) ∧
    (∀ (packet : List Nat) (s1 s2 s3 s4 : Nat × Nat),
      ipv6ExtStep packet (byteAt packet 6) 40 = some s1 →
      ipv6ExtStep packet s1.1 s1.2 = some s2 →
      ipv6ExtStep packet s2.1 s2.2 = some s3 →
      ipv6ExtStep packet s3.1 s3.2 = some s4 →
      ipv6SkipExt packet 4 (byteAt packet 6) 40 = s4) := by
  refine ⟨?_, ?_, ?_⟩
  · intro packet hlen hver
    simp only [parse_ipv6_packet]
    rw [if_neg (by omega), if_neg (by omega),
      if_neg (Nat.not_lt.mpr (ipv6SkipExt_le packet 4 (byteAt packet 6) 40 (by omega)))]
    split_ifs with h1 h2 h3 h4
    · exact ⟨_, rfl, rfl⟩
    · exact ⟨_, rfl, rfl⟩
    · exact ⟨_, rfl, rfl⟩
    · exact ⟨_, rfl, rfl⟩
    · exact ⟨_, rfl, rfl⟩
  · intro packet fuel nh offset h
    rw [ipv6SkipExt, ipv6ExtStep_overrun_none packet nh offset h]
  · intro packet s1 s2 s3 s4 h1 h2 h3 h4
    show ipv6SkipExt packet (3 + 1) (byteAt packet 6) 40 = s4
    rw [ipv6SkipExt_step packet 3 _ _ _ h1]
    show ipv6SkipExt packet (2 + 1) s1.1 s1.2 = s4
    rw [ipv6SkipExt_step packet 2 _ _ _ h2]
    show ipv6SkipExt packet (1 + 1) s2.1 s2.2 = s4
    rw [ipv6SkipExt_step packet 1 _ _ _ h3]
    show ipv6SkipExt packet (0 + 1) s3.1 s3.2 = s4
    rw [ipv6SkipExt_step packet 0 _ _ _ h4]
    rfl

theorem ipv6_extension_traversal_witness :
    (∃ a, parse_ipv6_packet ipv6ChainSample = some a ∧
      a.protocol = map_ip_protocol
        (ipv6SkipExt ipv6ChainSample 4 (byteAt ipv6ChainSample 6) 40).1) ∧
    ipv6SkipExt ([] : List Nat) (0 + 1) 0 0 = (0, 0) ∧
    ipv6SkipExt ipv6ChainSample 4 (byteAt ipv6ChainSample 6) 40 = ((6, 72) : Nat × Nat) :=
  ⟨ipv6_extension_traversal.1 ipv6ChainSample (by decide) (by decide),
   ipv6_extension_traversal.2.1 [] 0 0 0 (Or.inl ⟨Or.inl rfl, Or.inl (by decide)⟩),
   ipv6_extension_traversal.2.2 ipv6ChainSample (0, 48) (0, 56) (0, 64) (6, 72)
     (by decide) (by decide) (by decide) (by decide)⟩

end PipeLion
